import Mathlib

/-!
Verification development for the cblas-inject runtime bridge.

The bridge lets CBLAS-shaped calls (row-major capable, value-passed scalars,
explicit leading dimensions, enumerated order/transpose flags) be served by
caller-registered raw Fortran-convention kernels (column-major only,
reference-passed scalars, two competing complex-return ABIs).

The repository ships only the Python example callers under `examples/python/`;
the bridge itself (Kernel Registry, Convention Policy, Layout Translator,
Dispatch Adapter) is modelled here from the design specification.  Scalars are
modelled as rationals (exact arithmetic standing for the double precision
floating point of the source interface), buffers as flat lists, raw pointers
as natural-number addresses, and the foreign code memory as an environment
mapping an address to the semantic function the code at that address computes.
-/

namespace CblasInject

/-- Modelled from the spec: the error taxonomy of §7 — `UnregisteredRoutine`
(dispatch attempted before registration), `InvalidArgument` (malformed
dimensions, leading dimensions, or null required pointers),
`UnsupportedConvention` (an unrecognized style value configured). -/
inductive CblasError where
  | UnregisteredRoutine
  | InvalidArgument
  | UnsupportedConvention
deriving DecidableEq, Repr

/-- Complex scalar modelled as a pair of rationals (real, imaginary). -/
abbrev CC : Type := ℚ × ℚ

/-- Complex addition. -/
def cadd (a b : CC) : CC := (a.1 + b.1, a.2 + b.2)

/-- Complex multiplication. -/
def cmul (a b : CC) : CC := (a.1 * b.1 - a.2 * b.2, a.1 * b.2 + a.2 * b.1)

/-- Complex conjugation. -/
def cconj (a : CC) : CC := (a.1, -a.2)

/-- Sum of `f 0 + f 1 + ... + f (k-1)` over the rationals. -/
def sumRange : Nat → (Nat → ℚ) → ℚ
  | 0, _ => 0
  | k + 1, f => sumRange k f + f k

/-- Sum of `f 0 + ... + f (n-1)` over complex pairs. -/
def csumRange : Nat → (Nat → CC) → CC
  | 0, _ => ((0 : ℚ), (0 : ℚ))
  | n + 1, f => cadd (csumRange n f) (f n)

/-- Map over a list with the index available, starting the count at `i`. -/
def idxMapFrom {α : Type} (f : Nat → α → α) : Nat → List α → List α
  | _, [] => []
  | i, a :: l => f i a :: idxMapFrom f (i + 1) l

/-- Map over a list with the index available. -/
def idxMap {α : Type} (f : Nat → α → α) (l : List α) : List α := idxMapFrom f 0 l

/-- Element `(r, c)` of `op(buf)` for a column-major stored matrix with
leading dimension `ld`: if `trans` is set, `op` transposes, so the element is
`buf(c, r)`, stored at `c + r * ld`; otherwise it is `buf(r, c)`, stored at
`r + c * ld`.  Out-of-range reads default to `0`. -/
def colMajorOpElem (trans : Bool) (buf : List ℚ) (ld r c : Nat) : ℚ :=
  if trans then buf.getD (c + r * ld) 0 else buf.getD (r + c * ld) 0

/-- Element `(r, c)` of `op(buf)` for a row-major stored matrix with leading
dimension `ld`. -/
def rowMajorOpElem (trans : Bool) (buf : List ℚ) (ld r c : Nat) : ℚ :=
  if trans then buf.getD (c * ld + r) 0 else buf.getD (r * ld + c) 0

/-- Semantic shape of a registered Fortran `dgemm` kernel: given transpose
flags, extents `m n k`, scalars `alpha`/`beta`, the operand buffers with their
leading dimensions, and the current output buffer, it produces the new output
buffer, interpreting every matrix as column-major. -/
abbrev DgemmKernel : Type :=
  Bool → Bool → Nat → Nat → Nat → ℚ → List ℚ → Nat → List ℚ → Nat → ℚ →
    List ℚ → Nat → List ℚ

/-- Reference column-major `dgemm`: `C := alpha * op(A) * op(B) + beta * C`,
with `op(A)` of extent `m × k`, `op(B)` of extent `k × n` and `C` of extent
`m × n`, all column-major.  The buffer cell at flat position `p` holds matrix
entry `(p % ldc, p / ldc)`; cells outside the active `m × n` region are left
unchanged. -/
def fortranDgemm : DgemmKernel :=
  fun transA transB m n k alpha A lda B ldb beta C ldc =>
    idxMap (fun p c =>
      if p % ldc < m ∧ p / ldc < n then
        alpha * sumRange k (fun l =>
          colMajorOpElem transA A lda (p % ldc) l *
            colMajorOpElem transB B ldb l (p / ldc)) + beta * c
      else c) C

/-- Reference row-major `gemm`: the same mathematical operation computed
directly on row-major buffers, the independent reference the translation is
checked against.  The buffer cell at flat position `p` holds matrix entry
`(p / ldc, p % ldc)`. -/
def rowMajorGemm (transA transB : Bool) (m n k : Nat) (alpha : ℚ)
    (A : List ℚ) (lda : Nat) (B : List ℚ) (ldb : Nat) (beta : ℚ)
    (C : List ℚ) (ldc : Nat) : List ℚ :=
  idxMap (fun p c =>
    if p / ldc < m ∧ p % ldc < n then
      alpha * sumRange k (fun l =>
        rowMajorOpElem transA A lda (p / ldc) l *
          rowMajorOpElem transB B ldb l (p % ldc)) + beta * c
    else c) C

/-- Semantic shape of a registered Fortran `zdotc` kernel obeying the
`ReturnValue` convention: the complex result is the call's return value. -/
abbrev ZdotcRetKernel : Type := Nat → List CC → Nat → List CC → Nat → CC

/-- Semantic shape of a registered Fortran `zdotc` kernel obeying the
`HiddenArgument` convention: the kernel receives the current content of the
pre-allocated result slot as an implicit first argument and yields the new
slot content; it produces no usable return value. -/
abbrev ZdotcHidKernel : Type := CC → Nat → List CC → Nat → List CC → Nat → CC

/-- A stub honoring `ReturnValue` built from a logical kernel. -/
def retStub (f : ZdotcRetKernel) : ZdotcRetKernel := f

/-- A stub honoring `HiddenArgument` built from the same logical kernel: it
ignores the incoming slot content and writes the logical result. -/
def hidStub (f : ZdotcRetKernel) : ZdotcHidKernel :=
  fun _ n x incx y incy => f n x incx y incy

/-- Reference `zdotc`: the conjugate-linear dot product
`sum over i < n of conj(x[i * incx]) * y[i * incy]`. -/
def refZdotc : ZdotcRetKernel :=
  fun n x incx y incy =>
    csumRange n (fun i =>
      cmul (cconj (x.getD (i * incx) ((0 : ℚ), (0 : ℚ))))
        (y.getD (i * incy) ((0 : ℚ), (0 : ℚ))))

/-- Modelled from the spec: the process-wide bridge state — the Kernel
Registry (one slot per routine identity, holding the registered raw address
if any) together with the Convention Policy (the configured complex return
style, stored as the raw integer handed to the policy entry point:
`0 = ReturnValue`, `1 = HiddenArgument`). -/
structure BridgeState where
  dgemmPtr : Option Nat
  zdotcPtr : Option Nat
  style : Int
deriving DecidableEq, Repr

/-- Modelled from the spec: the initial process state — nothing registered,
and the documented fixed default style `ReturnValue` (encoded `0`). -/
def initState : BridgeState := ⟨none, none, 0⟩

/-- Modelled from the spec: `register_dgemm(pointer)` stores or replaces the
kernel address for the `dgemm` identity (last write wins). -/
def register_dgemm (s : BridgeState) (addr : Nat) : BridgeState :=
  { s with dgemmPtr := some addr }

/-- Modelled from the spec: `register_zdotc(pointer)` stores or replaces the
kernel address for the `zdotc` identity (last write wins). -/
def register_zdotc (s : BridgeState) (addr : Nat) : BridgeState :=
  { s with zdotcPtr := some addr }

/-- Modelled from the spec: `set_complex_return_style(style)` updates the
process-wide style used by every subsequent complex-scalar dispatch. -/
def set_complex_return_style (s : BridgeState) (v : Int) : BridgeState :=
  { s with style := v }

/-- Decode a CBLAS transpose flag: `111 = NoTranspose`, `112 = Transpose`,
`113 = ConjugateTranspose` (conjugation coincides with transposition for the
real routine family); anything else is malformed. -/
def decodeTrans (t : Int) : Option Bool :=
  if t = 111 then some false
  else if t = 112 ∨ t = 113 then some true
  else none

/-- Modelled from the spec: leading-dimension consistency for a `dgemm` call,
relative to the declared order (`101 = RowMajor`, `102 = ColumnMajor`): each
leading dimension must be at least the relevant extent of its operand and at
least one. -/
def dgemmLdOk (order : Int) (ta tb : Bool) (m n k lda ldb ldc : Int) : Prop :=
  (order = 101 →
    max 1 (if ta then m else k) ≤ lda ∧
    max 1 (if tb then k else n) ≤ ldb ∧ max 1 n ≤ ldc) ∧
  (order = 102 →
    max 1 (if ta then k else m) ≤ lda ∧
    max 1 (if tb then n else k) ≤ ldb ∧ max 1 m ≤ ldc)

instance (order : Int) (ta tb : Bool) (m n k lda ldb ldc : Int) :
    Decidable (dgemmLdOk order ta tb m n k lda ldb ldc) := by
  unfold dgemmLdOk; infer_instance

/-- Modelled from the spec: the `cblas_dgemm` Dispatch Adapter entry point.
It validates the arguments (dimensions non-negative, leading dimensions
consistent with the declared order, pointers non-null, flag encodings
recognized), resolves the Registry, and — for a row-major order — applies the
Layout Translator: the kernel is invoked with the two operands swapped, their
transpose flags swapped with them, the `M`/`N` extents swapped, and the
output buffer reused unmodified (a row-major `M × N` buffer and a
column-major `N × M` buffer in the same memory are bit-identical).  A
column-major call passes through unchanged.  `env` is the foreign code
memory resolving a registered raw address to the kernel it computes.  The
result pairs the reported error, if any, with the final content of the
caller-supplied output buffer, which every failure path leaves untouched. -/
def cblas_dgemm (env : Nat → DgemmKernel) (s : BridgeState)
    (order transA transB : Int) (m n k : Int) (alpha : ℚ)
    (A : Option (List ℚ)) (lda : Int) (B : Option (List ℚ)) (ldb : Int)
    (beta : ℚ) (C : Option (List ℚ)) (ldc : Int) :
    Option CblasError × Option (List ℚ) :=
  match A, B, C, decodeTrans transA, decodeTrans transB with
  | some a, some b, some c, some ta, some tb =>
    if (order = 101 ∨ order = 102) ∧ 0 ≤ m ∧ 0 ≤ n ∧ 0 ≤ k ∧
        dgemmLdOk order ta tb m n k lda ldb ldc then
      match s.dgemmPtr with
      | none => (some CblasError.UnregisteredRoutine, C)
      | some addr =>
        if order = 101 then
          (none, some (env addr tb ta n.toNat m.toNat k.toNat alpha
            b ldb.toNat a lda.toNat beta c ldc.toNat))
        else
          (none, some (env addr ta tb m.toNat n.toNat k.toNat alpha
            a lda.toNat b ldb.toNat beta c ldc.toNat))
    else (some CblasError.InvalidArgument, C)
  | _, _, _, _, _ => (some CblasError.InvalidArgument, C)

/-- Modelled from the spec: the `cblas_zdotc_sub` Dispatch Adapter entry
point.  It validates the arguments (length non-negative, strides
non-negative, pointers non-null), resolves the Registry, then consults the
Convention Policy: under `ReturnValue` (style `0`) it invokes the kernel
expecting the result as the call's return and transcribes it into the
caller-supplied output slot; under `HiddenArgument` (style `1`) it passes the
slot as the implicit first argument and reads no return value; an
unrecognized configured style fails with `UnsupportedConvention`.  The result
pairs the reported error, if any, with the final content of the output slot,
which every failure path leaves untouched. -/
def cblas_zdotc_sub (envR : Nat → ZdotcRetKernel) (envH : Nat → ZdotcHidKernel)
    (s : BridgeState) (n : Int) (x : Option (List CC)) (incx : Int)
    (y : Option (List CC)) (incy : Int) (result : Option CC) :
    Option CblasError × Option CC :=
  match x, y, result with
  | some xs, some ys, some res =>
    if 0 ≤ n ∧ 0 ≤ incx ∧ 0 ≤ incy then
      match s.zdotcPtr with
      | none => (some CblasError.UnregisteredRoutine, result)
      | some addr =>
        if s.style = 0 then
          (none, some (envR addr n.toNat xs incx.toNat ys incy.toNat))
        else if s.style = 1 then
          (none, some (envH addr res n.toNat xs incx.toNat ys incy.toNat))
        else (some CblasError.UnsupportedConvention, result)
    else (some CblasError.InvalidArgument, result)
  | _, _, _ => (some CblasError.InvalidArgument, result)

/-! ### Helper lemmas -/

theorem idxMapFrom_ext {α : Type} (f g : Nat → α → α) (h : ∀ p a, f p a = g p a) :
    ∀ (i : Nat) (l : List α), idxMapFrom f i l = idxMapFrom g i l
  | _, [] => rfl
  | i, a :: l => by
      rw [idxMapFrom, idxMapFrom, h, idxMapFrom_ext f g h (i + 1) l]

theorem idxMapFrom_length {α : Type} (f : Nat → α → α) :
    ∀ (i : Nat) (l : List α), (idxMapFrom f i l).length = l.length
  | _, [] => rfl
  | i, a :: l => by
      rw [idxMapFrom, List.length_cons, List.length_cons,
        idxMapFrom_length f (i + 1) l]

theorem idxMapFrom_getD_lt {α : Type} (f : Nat → α → α) (d : α) :
    ∀ (i : Nat) (l : List α) (p : Nat), p < l.length →
      (idxMapFrom f i l).getD p d = f (i + p) (l.getD p d)
  | _, [], p, hp => absurd hp (by simp)
  | i, a :: l, 0, _ => by
      rw [idxMapFrom, List.getD_cons_zero, List.getD_cons_zero, Nat.add_zero]
  | i, a :: l, p + 1, hp => by
      rw [idxMapFrom, List.getD_cons_succ, List.getD_cons_succ,
        idxMapFrom_getD_lt f d (i + 1) l p (by simpa using hp)]
      congr 1
      omega

theorem idxMap_length {α : Type} (f : Nat → α → α) (l : List α) :
    (idxMap f l).length = l.length :=
  idxMapFrom_length f 0 l

theorem idxMap_getD_lt {α : Type} (f : Nat → α → α) (d : α) (l : List α)
    (p : Nat) (hp : p < l.length) : (idxMap f l).getD p d = f p (l.getD p d) := by
  rw [idxMap, idxMapFrom_getD_lt f d 0 l p hp, Nat.zero_add]

theorem getD_of_length_le {α : Type} (d : α) :
    ∀ (l : List α) (p : Nat), l.length ≤ p → l.getD p d = d
  | [], _, _ => rfl
  | a :: l, 0, hp => absurd hp (by simp)
  | a :: l, p + 1, hp => by
      rw [List.getD_cons_succ, getD_of_length_le d l p (by simpa using hp)]

theorem sumRange_ext (k : Nat) (f g : Nat → ℚ) (h : ∀ l, f l = g l) :
    sumRange k f = sumRange k g := by
  rw [funext h]

theorem colMajorOpElem_flip (t : Bool) (buf : List ℚ) (ld r c : Nat) :
    colMajorOpElem t buf ld r c = rowMajorOpElem t buf ld c r := by
  cases t <;> simp [colMajorOpElem, rowMajorOpElem, Nat.add_comm]

/-- Translation correctness at the kernel level: invoking the column-major
reference kernel with swapped operands, swapped transpose flags and swapped
extents computes exactly the row-major reference result in the shared output
buffer. -/
theorem fortran_swap_eq_rowMajor (ta tb : Bool) (m n k : Nat) (alpha : ℚ)
    (A : List ℚ) (lda : Nat) (B : List ℚ) (ldb : Nat) (beta : ℚ)
    (C : List ℚ) (ldc : Nat) :
    fortranDgemm tb ta n m k alpha B ldb A lda beta C ldc
      = rowMajorGemm ta tb m n k alpha A lda B ldb beta C ldc := by
  unfold fortranDgemm rowMajorGemm idxMap
  apply idxMapFrom_ext
  intro p c
  refine if_congr and_comm ?_ rfl
  have hsum : sumRange k (fun l =>
      colMajorOpElem tb B ldb (p % ldc) l *
        colMajorOpElem ta A lda l (p / ldc))
      = sumRange k (fun l =>
        rowMajorOpElem ta A lda (p / ldc) l *
          rowMajorOpElem tb B ldb l (p % ldc)) := by
    apply sumRange_ext
    intro l
    rw [colMajorOpElem_flip, colMajorOpElem_flip, mul_comm]
  rw [hsum]

/-- Running the `dgemm` adapter for a validated row-major call: the kernel
registered at `addr` is invoked on the translated (operand-swapped) call
plan. -/
theorem cblas_dgemm_rowmajor_run
    (env : Nat → DgemmKernel) (s : BridgeState) (addr : Nat)
    (transA transB : Int) (ta tb : Bool) (m n k : Int) (alpha beta : ℚ)
    (a b c : List ℚ) (lda ldb ldc : Int)
    (hreg : s.dgemmPtr = some addr)
    (hta : decodeTrans transA = some ta) (htb : decodeTrans transB = some tb)
    (hm : 0 ≤ m) (hn : 0 ≤ n) (hk : 0 ≤ k)
    (hld : dgemmLdOk 101 ta tb m n k lda ldb ldc) :
    cblas_dgemm env s 101 transA transB m n k alpha
        (some a) lda (some b) ldb beta (some c) ldc
      = (none, some (env addr tb ta n.toNat m.toNat k.toNat alpha
          b ldb.toNat a lda.toNat beta c ldc.toNat)) := by
  simp [cblas_dgemm, hta, htb, hreg, hm, hn, hk, hld]

/-- Running the `dgemm` adapter for a validated column-major call: the call
plan passes through to the kernel registered at `addr` unchanged. -/
theorem cblas_dgemm_colmajor_run
    (env : Nat → DgemmKernel) (s : BridgeState) (addr : Nat)
    (transA transB : Int) (ta tb : Bool) (m n k : Int) (alpha beta : ℚ)
    (a b c : List ℚ) (lda ldb ldc : Int)
    (hreg : s.dgemmPtr = some addr)
    (hta : decodeTrans transA = some ta) (htb : decodeTrans transB = some tb)
    (hm : 0 ≤ m) (hn : 0 ≤ n) (hk : 0 ≤ k)
    (hld : dgemmLdOk 102 ta tb m n k lda ldb ldc) :
    cblas_dgemm env s 102 transA transB m n k alpha
        (some a) lda (some b) ldb beta (some c) ldc
      = (none, some (env addr ta tb m.toNat n.toNat k.toNat alpha
          a lda.toNat b ldb.toNat beta c ldc.toNat)) := by
  simp [cblas_dgemm, hta, htb, hreg, hm, hn, hk, hld]

/-! ### Claim theorems -/

/-- C1: for every valid row-major matrix-multiply call (dimensions
non-negative, leading dimensions consistent, pointers non-null), dispatching
through the Layout Translator — which invokes the registered column-major
reference kernel on the swapped call plan — yields exactly the row-major
matrix product `C := alpha * op(A) * op(B) + beta * C` computed directly; in
particular, at the concrete scenario of the example the output equals the
standard matrix product (see the witness). -/
theorem C1_rowmajor_translation_correct
    (env : Nat → DgemmKernel) (s : BridgeState) (addr : Nat)
    (transA transB : Int) (ta tb : Bool) (m n k : Int) (alpha beta : ℚ)
    (a b c : List ℚ) (lda ldb ldc : Int)
    (hreg : s.dgemmPtr = some addr) (henv : env addr = fortranDgemm)
    (hta : decodeTrans transA = some ta) (htb : decodeTrans transB = some tb)
    (hm : 0 ≤ m) (hn : 0 ≤ n) (hk : 0 ≤ k)
    (hld : dgemmLdOk 101 ta tb m n k lda ldb ldc) :
    cblas_dgemm env s 101 transA transB m n k alpha
        (some a) lda (some b) ldb beta (some c) ldc
      = (none, some (rowMajorGemm ta tb m.toNat n.toNat k.toNat alpha
          a lda.toNat b ldb.toNat beta c ldc.toNat)) := by
  rw [cblas_dgemm_rowmajor_run env s addr transA transB ta tb m n k alpha beta
    a b c lda ldb ldc hreg hta htb hm hn hk hld, henv,
    fortran_swap_eq_rowMajor]

/-- Witness for C1: the example scenario — `A = [[1,2],[3,4],[5,6]]` (3×2),
`B = [[1,2,3,4],[5,6,7,8]]` (2×4), `alpha = 1`, `beta = 0`, row-major, no
transpose — yields `C = A * B = [[11,14,17,20],[23,30,37,44],[35,46,57,68]]`. -/
theorem C1_rowmajor_translation_correct_witness :
    cblas_dgemm (fun _ => fortranDgemm) (register_dgemm initState 7)
        101 111 111 3 4 2 1 (some [1, 2, 3, 4, 5, 6]) 2
        (some [1, 2, 3, 4, 5, 6, 7, 8]) 4 0
        (some [0, 0, 0, 0, 0, 0, 0, 0, 0, 0, 0, 0]) 4
      = (none, some [11, 14, 17, 20, 23, 30, 37, 44, 35, 46, 57, 68]) :=
  (C1_rowmajor_translation_correct (fun _ => fortranDgemm)
    (register_dgemm initState 7) 7 111 111 false false 3 4 2 1 0
    [1, 2, 3, 4, 5, 6] [1, 2, 3, 4, 5, 6, 7, 8]
    [0, 0, 0, 0, 0, 0, 0, 0, 0, 0, 0, 0] 2 4 4
    rfl rfl (by decide) (by decide) (by decide) (by decide) (by decide)
    (by decide)).trans (by
      simp [rowMajorGemm, idxMap, idxMapFrom, sumRange, rowMajorOpElem,
        List.getD_cons_zero, List.getD_cons_succ]
      norm_num)

/-- C9: the numeric entry point accepts the standard CBLAS integer encodings
— `Order` passed as the plain int `101` for `RowMajor` and transpose flags
passed as the plain int `111` for `NoTranspose` — and such a call is treated
as a valid row-major, no-transpose request: it succeeds and routes to the
registered kernel on the row-major (swapped-operand) call plan with both
transpose flags decoded to no-transpose. -/
theorem C9_cblas_integer_encodings
    (env : Nat → DgemmKernel) (s : BridgeState) (addr : Nat)
    (m n k : Int) (alpha beta : ℚ) (a b c : List ℚ) (lda ldb ldc : Int)
    (hreg : s.dgemmPtr = some addr)
    (hm : 0 ≤ m) (hn : 0 ≤ n) (hk : 0 ≤ k)
    (hld : dgemmLdOk 101 false false m n k lda ldb ldc) :
    cblas_dgemm env s 101 111 111 m n k alpha
        (some a) lda (some b) ldb beta (some c) ldc
      = (none, some (env addr false false n.toNat m.toNat k.toNat alpha
          b ldb.toNat a lda.toNat beta c ldc.toNat)) :=
  cblas_dgemm_rowmajor_run env s addr 111 111 false false m n k alpha beta
    a b c lda ldb ldc hreg rfl rfl hm hn hk hld

/-- Witness for C9: a concrete 1×1×1 call encoded with the plain ints 101 and
111 succeeds and computes the product. -/
theorem C9_cblas_integer_encodings_witness :
    cblas_dgemm (fun _ => fortranDgemm) (register_dgemm initState 3)
        101 111 111 1 1 1 1 (some [2]) 1 (some [3]) 1 0 (some [1]) 1
      = (none, some [6]) :=
  (C9_cblas_integer_encodings (fun _ => fortranDgemm)
    (register_dgemm initState 3) 3 1 1 1 1 0 [2] [3] [1] 1 1 1
    rfl (by decide) (by decide) (by decide) (by decide)).trans (by
      simp [fortranDgemm, idxMap, idxMapFrom, sumRange, colMajorOpElem,
        List.getD_cons_zero, List.getD_cons_succ]
      norm_num)

/-- C2: for both members of `ComplexReturnStyle`, dispatching the same
logical scalar-complex-result kernel — one stub honoring `ReturnValue`
(style `0`), one honoring `HiddenArgument` (style `1`) — through the matching
configured style writes identical numeric results into the caller-supplied
output slot, so the caller observes no difference from the convention in
use. -/
theorem C2_return_style_equivalence
    (f : ZdotcRetKernel) (envR : Nat → ZdotcRetKernel)
    (envH : Nat → ZdotcHidKernel) (s : BridgeState) (addr : Nat)
    (n : Int) (x y : List CC) (incx incy : Int) (slot : CC)
    (hreg : s.zdotcPtr = some addr)
    (hR : envR addr = retStub f) (hH : envH addr = hidStub f)
    (hn : 0 ≤ n) (hx : 0 ≤ incx) (hy : 0 ≤ incy) :
    cblas_zdotc_sub envR envH (set_complex_return_style s 0) n
        (some x) incx (some y) incy (some slot)
      = cblas_zdotc_sub envR envH (set_complex_return_style s 1) n
          (some x) incx (some y) incy (some slot)
    ∧ cblas_zdotc_sub envR envH (set_complex_return_style s 0) n
        (some x) incx (some y) incy (some slot)
      = (none, some (f n.toNat x incx.toNat y incy.toNat)) := by
  constructor
  · simp [cblas_zdotc_sub, set_complex_return_style, hreg, hR, hH,
      retStub, hidStub, hn, hx, hy]
  · simp [cblas_zdotc_sub, set_complex_return_style, hreg, hR,
      retStub, hn, hx, hy]

/-- Witness for C2: concrete two-element vectors dispatched under both
styles against stubs built from the reference kernel agree, and hold the
logical result. -/
theorem C2_return_style_equivalence_witness :
    cblas_zdotc_sub (fun _ => retStub refZdotc) (fun _ => hidStub refZdotc)
        (set_complex_return_style (register_zdotc initState 5) 0) 2
        (some [(1, 0), (0, 1)]) 1 (some [(2, 0), (0, 3)]) 1 (some (9, 9))
      = cblas_zdotc_sub (fun _ => retStub refZdotc) (fun _ => hidStub refZdotc)
          (set_complex_return_style (register_zdotc initState 5) 1) 2
          (some [(1, 0), (0, 1)]) 1 (some [(2, 0), (0, 3)]) 1 (some (9, 9))
    ∧ cblas_zdotc_sub (fun _ => retStub refZdotc) (fun _ => hidStub refZdotc)
        (set_complex_return_style (register_zdotc initState 5) 0) 2
        (some [(1, 0), (0, 1)]) 1 (some [(2, 0), (0, 3)]) 1 (some (9, 9))
      = (none, some (refZdotc 2 [(1, 0), (0, 1)] 1 [(2, 0), (0, 3)] 1)) :=
  C2_return_style_equivalence refZdotc (fun _ => retStub refZdotc)
    (fun _ => hidStub refZdotc) (register_zdotc initState 5) 5 2
    [(1, 0), (0, 1)] [(2, 0), (0, 3)] 1 1 (9, 9)
    rfl rfl rfl (by decide) (by decide) (by decide)

/-- C8: dispatching the registered reference complex dot-product kernel
under the `ReturnValue` style with `x = [1+2i, 3+4i, 5+6i, 7+8i]`,
`y = [1-1i, 2-2i, 3-3i, 4-4i]` and unit increments writes the
conjugate-linear dot product `sum of conj(x[i]) * y[i] = -10 - 110i` into
the caller-supplied output slot, matching the independently computed
reference value. -/
theorem C8_zdotc_concrete_scenario :
    cblas_zdotc_sub (fun _ => refZdotc) (fun _ => hidStub refZdotc)
        (register_zdotc (set_complex_return_style initState 0) 5) 4
        (some [(1, 2), (3, 4), (5, 6), (7, 8)]) 1
        (some [(1, -1), (2, -2), (3, -3), (4, -4)]) 1 (some (0, 0))
      = (none, some ((-10 : ℚ), (-110 : ℚ)))
    ∧ csumRange 4 (fun i =>
        cmul (cconj ([(1, 2), (3, 4), (5, 6), (7, 8)].getD i ((0 : ℚ), (0 : ℚ))))
          ([(1, -1), (2, -2), (3, -3), (4, -4)].getD i ((0 : ℚ), (0 : ℚ))))
      = ((-10 : ℚ), (-110 : ℚ)) := by
  constructor
  · simp [cblas_zdotc_sub, register_zdotc, set_complex_return_style,
      initState, refZdotc, csumRange, cmul, cconj, cadd,
      List.getD_cons_zero, List.getD_cons_succ]
    norm_num
  · simp [csumRange, cmul, cconj, cadd,
      List.getD_cons_zero, List.getD_cons_succ]
    norm_num

/-- C10: configuring the complex return style and registering the kernel
commute — the two setup calls yield the same bridge state in either order,
and consequently every later dispatch behaves identically. -/
theorem C10_policy_registration_commute (s : BridgeState) (a : Nat) (v : Int) :
    set_complex_return_style (register_zdotc s a) v
      = register_zdotc (set_complex_return_style s v) a
    ∧ ∀ (envR : Nat → ZdotcRetKernel) (envH : Nat → ZdotcHidKernel)
        (n : Int) (x : Option (List CC)) (incx : Int)
        (y : Option (List CC)) (incy : Int) (res : Option CC),
        cblas_zdotc_sub envR envH
            (set_complex_return_style (register_zdotc s a) v) n x incx y incy res
          = cblas_zdotc_sub envR envH
              (register_zdotc (set_complex_return_style s v) a) n x incx y incy res :=
  ⟨rfl, fun _ _ _ _ _ _ _ _ => rfl⟩

/-- C7: registration is idempotent and last-write-wins — registering the
same address twice for an identity leaves the state of a single
registration, a later registration for the same identity replaces the
earlier one, and dispatch after a doubled registration behaves identically
to dispatch after a single one. -/
theorem C7_registration_idempotent_last_write_wins (s : BridgeState) (a b : Nat) :
    register_dgemm (register_dgemm s a) a = register_dgemm s a
    ∧ register_zdotc (register_zdotc s a) a = register_zdotc s a
    ∧ register_dgemm (register_dgemm s a) b = register_dgemm s b
    ∧ register_zdotc (register_zdotc s a) b = register_zdotc s b
    ∧ (∀ (env : Nat → DgemmKernel) (order transA transB m n k : Int)
        (alpha : ℚ) (A : Option (List ℚ)) (lda : Int) (B : Option (List ℚ))
        (ldb : Int) (beta : ℚ) (C : Option (List ℚ)) (ldc : Int),
        cblas_dgemm env (register_dgemm (register_dgemm s a) a)
            order transA transB m n k alpha A lda B ldb beta C ldc
          = cblas_dgemm env (register_dgemm s a)
              order transA transB m n k alpha A lda B ldb beta C ldc)
    ∧ (∀ (envR : Nat → ZdotcRetKernel) (envH : Nat → ZdotcHidKernel)
        (n : Int) (x : Option (List CC)) (incx : Int)
        (y : Option (List CC)) (incy : Int) (res : Option CC),
        cblas_zdotc_sub envR envH (register_zdotc (register_zdotc s a) a)
            n x incx y incy res
          = cblas_zdotc_sub envR envH (register_zdotc s a) n x incx y incy res) :=
  ⟨rfl, rfl, rfl, rfl, fun _ _ _ _ _ _ _ _ _ _ _ _ _ _ _ => rfl,
    fun _ _ _ _ _ _ _ _ => rfl⟩

/-- C3: for every Dispatch Adapter entry point, invoking it for a routine
identity with no registered kernel fails with `UnregisteredRoutine` and
performs no write to the caller-supplied output buffer (the buffer content
returned is exactly the content passed in). -/
theorem C3_unregistered_routine
    (env : Nat → DgemmKernel) (envR : Nat → ZdotcRetKernel)
    (envH : Nat → ZdotcHidKernel) (s : BridgeState)
    (order transA transB m n k : Int) (ta tb : Bool) (alpha beta : ℚ)
    (a b c : List ℚ) (lda ldb ldc : Int)
    (nz : Int) (x y : List CC) (incx incy : Int) (slot : CC)
    (hdg : s.dgemmPtr = none) (hzd : s.zdotcPtr = none)
    (hord : order = 101 ∨ order = 102)
    (hta : decodeTrans transA = some ta) (htb : decodeTrans transB = some tb)
    (hm : 0 ≤ m) (hn : 0 ≤ n) (hk : 0 ≤ k)
    (hld : dgemmLdOk order ta tb m n k lda ldb ldc)
    (hnz : 0 ≤ nz) (hx : 0 ≤ incx) (hy : 0 ≤ incy) :
    cblas_dgemm env s order transA transB m n k alpha
        (some a) lda (some b) ldb beta (some c) ldc
      = (some CblasError.UnregisteredRoutine, some c)
    ∧ cblas_zdotc_sub envR envH s nz (some x) incx (some y) incy (some slot)
      = (some CblasError.UnregisteredRoutine, some slot) := by
  constructor
  · simp only [cblas_dgemm, hta, htb, hdg]
    rw [if_pos ⟨hord, hm, hn, hk, hld⟩]
  · simp only [cblas_zdotc_sub, hzd]
    rw [if_pos ⟨hnz, hx, hy⟩]

/-- Witness for C3: on the fresh initial state both entry points report
`UnregisteredRoutine` and hand back the output buffers unchanged. -/
theorem C3_unregistered_routine_witness :
    cblas_dgemm (fun _ => fortranDgemm) initState 101 111 111 0 0 0 1
        (some []) 1 (some []) 1 0 (some []) 1
      = (some CblasError.UnregisteredRoutine, some [])
    ∧ cblas_zdotc_sub (fun _ => refZdotc) (fun _ => hidStub refZdotc)
        initState 0 (some []) 1 (some []) 1 (some (7, 7))
      = (some CblasError.UnregisteredRoutine, some (7, 7)) :=
  C3_unregistered_routine (fun _ => fortranDgemm) (fun _ => refZdotc)
    (fun _ => hidStub refZdotc) initState 101 111 111 0 0 0 false false 1 0
    [] [] [] 1 1 1 0 [] [] 1 1 (7, 7)
    rfl rfl (Or.inl rfl) rfl rfl (by decide) (by decide) (by decide)
    (by decide) (by decide) (by decide) (by decide)

/-- C4: for every Dispatch Adapter entry point and every failure (malformed
arguments, missing registration, unsupported convention), the caller-supplied
output buffer is handed back exactly as it was passed in — no partial writes
occur; on success the adapter returns only the complete kernel result, never
a partial one. -/
theorem C4_no_partial_writes
    (env : Nat → DgemmKernel) (envR : Nat → ZdotcRetKernel)
    (envH : Nat → ZdotcHidKernel) (s : BridgeState)
    (order transA transB m n k : Int) (alpha beta : ℚ)
    (A : Option (List ℚ)) (lda : Int) (B : Option (List ℚ)) (ldb : Int)
    (C : Option (List ℚ)) (ldc : Int)
    (nz : Int) (x : Option (List CC)) (incx : Int) (y : Option (List CC))
    (incy : Int) (res : Option CC) (e1 e2 : CblasError) :
    ((cblas_dgemm env s order transA transB m n k alpha A lda B ldb beta C ldc).1
        = some e1 →
      (cblas_dgemm env s order transA transB m n k alpha A lda B ldb beta C ldc).2
        = C)
    ∧ ((cblas_zdotc_sub envR envH s nz x incx y incy res).1 = some e2 →
      (cblas_zdotc_sub envR envH s nz x incx y incy res).2 = res) := by
  constructor
  · rcases A with _ | a <;> rcases B with _ | b <;> rcases C with _ | c <;>
      rcases hta : decodeTrans transA with _ | ta <;>
      rcases htb : decodeTrans transB with _ | tb <;>
      rcases hdg : s.dgemmPtr with _ | addr <;>
      simp [cblas_dgemm, hta, htb, hdg] <;> split_ifs <;> simp
  · rcases x with _ | xs <;> rcases y with _ | ys <;> rcases res with _ | r <;>
      rcases hzd : s.zdotcPtr with _ | addr <;>
      simp [cblas_zdotc_sub, hzd] <;> split_ifs <;> simp

/-- Witness for C4: two concrete failing dispatches (a negative extent for
the matrix multiply, a negative length for the dot product) hand the output
buffers back unchanged. -/
theorem C4_no_partial_writes_witness :
    (cblas_dgemm (fun _ => fortranDgemm) initState 101 111 111 (-1) 0 0 1
        (some [1]) 1 (some [2]) 1 0 (some [3]) 1).2 = some [3]
    ∧ (cblas_zdotc_sub (fun _ => refZdotc) (fun _ => hidStub refZdotc)
        initState (-1) (some []) 1 (some []) 1 (some (7, 7))).2 = some (7, 7) :=
  ⟨(C4_no_partial_writes (fun _ => fortranDgemm) (fun _ => refZdotc)
      (fun _ => hidStub refZdotc) initState 101 111 111 (-1) 0 0 1 0
      (some [1]) 1 (some [2]) 1 (some [3]) 1 (-1) (some []) 1 (some []) 1
      (some (7, 7)) CblasError.InvalidArgument CblasError.InvalidArgument).1
      (by decide),
    (C4_no_partial_writes (fun _ => fortranDgemm) (fun _ => refZdotc)
      (fun _ => hidStub refZdotc) initState 101 111 111 (-1) 0 0 1 0
      (some [1]) 1 (some [2]) 1 (some [3]) 1 (-1) (some []) 1 (some []) 1
      (some (7, 7)) CblasError.InvalidArgument CblasError.InvalidArgument).2
      (by decide)⟩

/-- C5: every dispatch call whose arguments contain a negative stride or
leading dimension, a negative dimension, or a null required pointer fails
with `InvalidArgument`, for both entry points. -/
theorem C5_invalid_argument
    (env : Nat → DgemmKernel) (envR : Nat → ZdotcRetKernel)
    (envH : Nat → ZdotcHidKernel) (s : BridgeState)
    (order transA transB m n k : Int) (alpha beta : ℚ)
    (A : Option (List ℚ)) (lda : Int) (B : Option (List ℚ)) (ldb : Int)
    (C : Option (List ℚ)) (ldc : Int)
    (nz : Int) (x : Option (List CC)) (incx : Int) (y : Option (List CC))
    (incy : Int) (res : Option CC)
    (hbad1 : m < 0 ∨ n < 0 ∨ k < 0 ∨ lda < 0 ∨ ldb < 0 ∨ ldc < 0 ∨
      A = none ∨ B = none ∨ C = none)
    (hbad2 : nz < 0 ∨ incx < 0 ∨ incy < 0 ∨ x = none ∨ y = none ∨ res = none) :
    cblas_dgemm env s order transA transB m n k alpha A lda B ldb beta C ldc
      = (some CblasError.InvalidArgument, C)
    ∧ cblas_zdotc_sub envR envH s nz x incx y incy res
      = (some CblasError.InvalidArgument, res) := by
  constructor
  · rcases A with _ | a
    · simp [cblas_dgemm]
    · rcases B with _ | b
      · simp [cblas_dgemm]
      · rcases C with _ | c
        · simp [cblas_dgemm]
        · have hb : m < 0 ∨ n < 0 ∨ k < 0 ∨ lda < 0 ∨ ldb < 0 ∨ ldc < 0 := by
            simpa using hbad1
          rcases hta : decodeTrans transA with _ | ta
          · simp [cblas_dgemm, hta]
          · rcases htb : decodeTrans transB with _ | tb
            · simp [cblas_dgemm, hta, htb]
            · have hcond : ¬ ((order = 101 ∨ order = 102) ∧ 0 ≤ m ∧ 0 ≤ n ∧
                  0 ≤ k ∧ dgemmLdOk order ta tb m n k lda ldb ldc) := by
                rintro ⟨hord, hm, hn, hk, hld⟩
                have h1 : 1 ≤ lda ∧ 1 ≤ ldb ∧ 1 ≤ ldc := by
                  rcases hord with ho | ho
                  · obtain ⟨u, v, w⟩ := hld.1 ho
                    exact ⟨le_trans (le_max_left _ _) u,
                      le_trans (le_max_left _ _) v, le_trans (le_max_left _ _) w⟩
                  · obtain ⟨u, v, w⟩ := hld.2 ho
                    exact ⟨le_trans (le_max_left _ _) u,
                      le_trans (le_max_left _ _) v, le_trans (le_max_left _ _) w⟩
                rcases hb with h | h | h | h | h | h <;> omega
              simp only [cblas_dgemm, hta, htb]
              rw [if_neg hcond]
  · rcases x with _ | xs
    · simp [cblas_zdotc_sub]
    · rcases y with _ | ys
      · simp [cblas_zdotc_sub]
      · rcases res with _ | r
        · simp [cblas_zdotc_sub]
        · have hb2 : nz < 0 ∨ incx < 0 ∨ incy < 0 := by simpa using hbad2
          simp only [cblas_zdotc_sub]
          rw [if_neg (by rintro ⟨h1, h2, h3⟩; rcases hb2 with h | h | h <;> omega)]

/-- Witness for C5: a matrix-multiply call with a negative extent and a dot
product call with a negative stride both fail with `InvalidArgument`. -/
theorem C5_invalid_argument_witness :
    cblas_dgemm (fun _ => fortranDgemm) (register_dgemm initState 7)
        101 111 111 (-1) 1 1 1 (some [1]) 1 (some [1]) 1 0 (some [1]) 1
      = (some CblasError.InvalidArgument, some [1])
    ∧ cblas_zdotc_sub (fun _ => refZdotc) (fun _ => hidStub refZdotc)
        (register_dgemm initState 7) 1 (some [(1, 1)]) (-1)
        (some [(1, 1)]) 1 (some (0, 0))
      = (some CblasError.InvalidArgument, some (0, 0)) :=
  C5_invalid_argument (fun _ => fortranDgemm) (fun _ => refZdotc)
    (fun _ => hidStub refZdotc) (register_dgemm initState 7)
    101 111 111 (-1) 1 1 1 0 (some [1]) 1 (some [1]) 1 (some [1]) 1
    1 (some [(1, 1)]) (-1) (some [(1, 1)]) 1 (some (0, 0))
    (by decide) (by decide)

/-- C6: for every matrix-multiply dispatch whose inner dimension `K` is
zero, the output equals the prior output scaled by the beta multiplier
alone — no contribution from the zero-size product arises even though the
registered kernel is invoked (the kernel call with a zero inner dimension is
safe and produces the same result as a special-cased no-op would). -/
theorem C6_zero_inner_dimension
    (env : Nat → DgemmKernel) (s : BridgeState) (addr : Nat)
    (order transA transB : Int) (ta tb : Bool) (m n : Int) (alpha beta : ℚ)
    (a b c : List ℚ) (lda ldb ldc : Int)
    (hreg : s.dgemmPtr = some addr) (henv : env addr = fortranDgemm)
    (hta : decodeTrans transA = some ta) (htb : decodeTrans transB = some tb)
    (hord : order = 101 ∨ order = 102)
    (hm : 0 ≤ m) (hn : 0 ≤ n)
    (hld : dgemmLdOk order ta tb m n 0 lda ldb ldc) :
    ∃ c2,
      cblas_dgemm env s order transA transB m n 0 alpha
          (some a) lda (some b) ldb beta (some c) ldc = (none, some c2)
      ∧ ∀ i j, i < m.toNat → j < n.toNat →
          c2.getD (if order = 101 then i * ldc.toNat + j else i + j * ldc.toNat) 0
            = beta * c.getD (if order = 101 then i * ldc.toNat + j
                else i + j * ldc.toNat) 0 := by
  rcases hord with ho | ho <;> subst ho
  · refine ⟨_, cblas_dgemm_rowmajor_run env s addr transA transB ta tb m n 0
      alpha beta a b c lda ldb ldc hreg hta htb hm hn le_rfl hld, ?_⟩
    intro i j hi hj
    rw [henv]
    have hcond : (if (101 : Int) = 101 then i * ldc.toNat + j
        else i + j * ldc.toNat) = i * ldc.toNat + j := if_pos rfl
    rw [hcond]
    have hmax := max_le_iff.mp (hld.1 rfl).2.2
    have hLn : n.toNat ≤ ldc.toNat := by omega
    have hL0 : 0 < ldc.toNat := by omega
    have hjL : j < ldc.toNat := lt_of_lt_of_le hj hLn
    have hmod : (i * ldc.toNat + j) % ldc.toNat = j := by
      rw [Nat.add_comm, Nat.add_mul_mod_self_right, Nat.mod_eq_of_lt hjL]
    have hdiv : (i * ldc.toNat + j) / ldc.toNat = i := by
      rw [Nat.add_comm, Nat.add_mul_div_right _ _ hL0, Nat.div_eq_of_lt hjL,
        Nat.zero_add]
    unfold fortranDgemm
    by_cases hp : i * ldc.toNat + j < c.length
    · rw [idxMap_getD_lt _ _ _ _ hp]
      simp only [hmod, hdiv]
      rw [if_pos ⟨hj, hi⟩]
      simp [sumRange]
    · push_neg at hp
      rw [getD_of_length_le _ _ _ (by rw [idxMap_length]; exact hp),
        getD_of_length_le _ _ _ hp, mul_zero]
  · refine ⟨_, cblas_dgemm_colmajor_run env s addr transA transB ta tb m n 0
      alpha beta a b c lda ldb ldc hreg hta htb hm hn le_rfl hld, ?_⟩
    intro i j hi hj
    rw [henv]
    have hcond : (if (102 : Int) = 101 then i * ldc.toNat + j
        else i + j * ldc.toNat) = i + j * ldc.toNat := if_neg (by decide)
    rw [hcond]
    have hmax := max_le_iff.mp (hld.2 rfl).2.2
    have hLm : m.toNat ≤ ldc.toNat := by omega
    have hL0 : 0 < ldc.toNat := by omega
    have hiL : i < ldc.toNat := lt_of_lt_of_le hi hLm
    have hmod : (i + j * ldc.toNat) % ldc.toNat = i := by
      rw [Nat.add_mul_mod_self_right, Nat.mod_eq_of_lt hiL]
    have hdiv : (i + j * ldc.toNat) / ldc.toNat = j := by
      rw [Nat.add_mul_div_right _ _ hL0, Nat.div_eq_of_lt hiL, Nat.zero_add]
    unfold fortranDgemm
    by_cases hp : i + j * ldc.toNat < c.length
    · rw [idxMap_getD_lt _ _ _ _ hp]
      simp only [hmod, hdiv]
      rw [if_pos ⟨hi, hj⟩]
      simp [sumRange]
    · push_neg at hp
      rw [getD_of_length_le _ _ _ (by rw [idxMap_length]; exact hp),
        getD_of_length_le _ _ _ hp, mul_zero]

/-- Witness for C6: a row-major 2-by-2 multiply with inner dimension zero,
`beta = 5` and prior output `[1, 2, 3, 4]` succeeds and scales every active
entry by `beta` alone. -/
theorem C6_zero_inner_dimension_witness :
    ∃ c2,
      cblas_dgemm (fun _ => fortranDgemm) (register_dgemm initState 7)
          101 111 111 2 2 0 3 (some []) 1 (some []) 2 5
          (some [1, 2, 3, 4]) 2 = (none, some c2)
      ∧ ∀ i j, i < (2 : Int).toNat → j < (2 : Int).toNat →
          c2.getD (if (101 : Int) = 101 then i * (2 : Int).toNat + j
              else i + j * (2 : Int).toNat) 0
            = 5 * [(1 : ℚ), 2, 3, 4].getD
                (if (101 : Int) = 101 then i * (2 : Int).toNat + j
                  else i + j * (2 : Int).toNat) 0 :=
  C6_zero_inner_dimension (fun _ => fortranDgemm) (register_dgemm initState 7)
    7 101 111 111 false false 2 2 3 5 [] [] [1, 2, 3, 4] 1 2 2
    rfl rfl rfl rfl (Or.inl rfl) (by decide) (by decide) (by decide)

end CblasInject
